/-
Verification of the markdown configuration parser and live-reload provider
(`core/MD_reader/md_config_expandev.py`).

Strings are modelled as `List Char` (`Str`).  Python `re` patterns used by the
parser are all of the restricted shape "literal, lazy gap, literal/lookahead",
so each one is embedded by explicit first-occurrence substring search, which
coincides with the leftmost-match / lazy-quantifier semantics of the engine on
these patterns.  The filesystem is modelled as an association list from path to
`Option content` (`none` = file exists but read raises a non-FileNotFoundError;
absence from the list = FileNotFoundError).  Python `float` timestamps are
modelled as `ℚ`; the `0.1/0.5/0.9` temperature literals as `ℚ` literals.
-/

import Mathlib

set_option maxHeartbeats 1000000
set_option maxRecDepth 100000

abbrev Str := List Char

/-- Python whitespace characters stripped by `str.strip()` (ASCII subset). -/
def pyIsSpace (c : Char) : Bool :=
  c = ' ' || c = '\t' || c = '\n' || c = '\r' || c = '\x0b' || c = '\x0c'

/-- `str.strip()`: drop whitespace from both ends. -/
def pyStrip (s : Str) : Str :=
  ((s.dropWhile pyIsSpace).reverse.dropWhile pyIsSpace).reverse

/-- Index of the first occurrence of `p` as a contiguous substring of `t`
(`none` if `p` never occurs).  An empty pattern occurs at index 0. -/
def firstOcc (p : Str) : Str → Option Nat
  | [] => if p.isPrefixOf ([] : Str) then some 0 else none
  | c :: t => if p.isPrefixOf (c :: t) then some 0 else (firstOcc p t).map (· + 1)

/-- Substring containment test (`p in t` in Python). -/
def containsSub (p t : Str) : Bool :=
  (firstOcc p t).isSome

/-- `s.split(sep)` for a one-character separator: always returns a non-empty
list of separator-free pieces. -/
def splitOnChar (c : Char) : Str → List Str
  | [] => [[]]
  | x :: xs =>
    let r := splitOnChar c xs
    if x = c then [] :: r
    else
      match r with
      | [] => [[x]]
      | h :: t => (x :: h) :: t

/-- The lazy tail `.*?(?=LOOKAHEAD|$)` (with `re.DOTALL`): everything up to the
first occurrence of `la`, or — when `la` never occurs — up to the `$` anchor,
which in Python matches at end of string and also just before a final
newline. -/
def lazyTo (la after : Str) : Str :=
  match firstOcc la after with
  | some j => after.take j
  | none => if after.getLast? = some '\n' then after.dropLast else after

/-- `MarkdownParserUtils.find_section`: first try the bold form
`\*\*name\*\*.*?(?=\*\*|$)`, then the heading form `### name.*?(?=###|$)`
(both `re.DOTALL`, `section_name` escaped, so matched literally). -/
def find_section (content name : Str) : Str :=
  let p1 : Str := "**".toList ++ name ++ "**".toList
  match firstOcc p1 content with
  | some i => p1 ++ lazyTo "**".toList (content.drop (i + p1.length))
  | none =>
    let p2 : Str := "### ".toList ++ name
    match firstOcc p2 content with
    | some i => p2 ++ lazyTo "###".toList (content.drop (i + p2.length))
    | none => []

/-- `MarkdownParserUtils.extract_between_backticks`: regex
`` ```(.*?)``` `` with `re.DOTALL`; the group is the text between the first
fence and the earliest closing fence after it, stripped. -/
def extract_between_backticks (text : Str) : Str :=
  if text = [] then []
  else
    match firstOcc "```".toList text with
    | none => []
    | some i =>
      let after := text.drop (i + 3)
      match firstOcc "```".toList after with
      | some j => pyStrip (after.take j)
      | none => []

/-- A line contains a marked checkbox (`'[X]' in line or '[x]' in line`). -/
def markedLine (line : Str) : Bool :=
  containsSub "[X]".toList line || containsSub "[x]".toList line

/-- `re.search(r'- \[[Xx]\] ([^:\n]+)', line)`: leftmost position where the
6-character prefix `- [X] ` (or `- [x] `) is followed by at least one
character that is neither `:` nor a newline; the greedy group is the maximal
such run. -/
def checkboxMatch : Str → Option Str
  | [] => none
  | c :: rest =>
    if ("- [X] ".toList.isPrefixOf (c :: rest) || "- [x] ".toList.isPrefixOf (c :: rest)) then
      let grp := ((c :: rest).drop 6).takeWhile (fun ch => ch ≠ ':' && ch ≠ '\n')
      if grp = [] then checkboxMatch rest else some grp
    else checkboxMatch rest

/-- Loop body of `extract_selected_checkbox_value` over the split lines:
skip lines without a mark; on a marked line return the stripped group if the
regex matches, otherwise keep scanning. -/
def checkboxLoop : List Str → Str
  | [] => []
  | l :: ls =>
    if markedLine l then
      match checkboxMatch l with
      | some v => pyStrip v
      | none => checkboxLoop ls
    else checkboxLoop ls

/-- `MarkdownParserUtils.extract_selected_checkbox_value`. -/
def extract_selected_checkbox_value (sec : Str) : Str :=
  if sec = [] then []
  else checkboxLoop (splitOnChar '\n' sec)

/-- `MarkdownParserUtils.section_exists`: regex
`\*\*name\*\*|### name` (name escaped), i.e. a plain substring test for
either form. -/
def section_exists (content name : Str) : Bool :=
  containsSub ("**".toList ++ name ++ "**".toList) content ||
    containsSub ("### ".toList ++ name) content

/-- `MarkdownParserUtils.find_section_between_headers`: regex
`(start.*?)(?=end|$)` with `re.DOTALL`, both headers escaped: group 1 is the
start header followed by everything before the first later occurrence of the
end header (or to the `$` anchor). -/
def find_section_between_headers (content start_header end_header : Str) : Str :=
  match firstOcc start_header content with
  | none => []
  | some i => start_header ++ lazyTo end_header (content.drop (i + start_header.length))

/-- `re.search(r'- \[[Xx]\] ([^:]+):\s*(.+)', line)`: leftmost position with
the checkbox prefix followed by a non-empty colon-free run, a colon, optional
whitespace and a non-empty remainder; when everything after the colon is
whitespace the `\s*` backtracks one character so `(.+)` is the final
character. -/
def optionFullMatch : Str → Option (Str × Str)
  | [] => none
  | c :: rest =>
    if ("- [X] ".toList.isPrefixOf (c :: rest) || "- [x] ".toList.isPrefixOf (c :: rest)) then
      let tail := (c :: rest).drop 6
      let grp1 := tail.takeWhile (fun ch => ch ≠ ':')
      let after := tail.drop grp1.length
      if grp1 ≠ [] ∧ after.head? = some ':' then
        let rest2 := after.drop 1
        let ws := rest2.takeWhile (fun ch => pyIsSpace ch)
        let rem := rest2.drop ws.length
        if rem ≠ [] then some (grp1, rem)
        else if rest2 ≠ [] then some (grp1, rest2.drop (rest2.length - 1))
        else optionFullMatch rest
      else optionFullMatch rest
    else optionFullMatch rest

/-- `re.search(r'- \[[Xx]\] ([^:]+)', line)`: leftmost checkbox prefix
followed by a non-empty colon-free run. -/
def optionShortMatch : Str → Option Str
  | [] => none
  | c :: rest =>
    if ("- [X] ".toList.isPrefixOf (c :: rest) || "- [x] ".toList.isPrefixOf (c :: rest)) then
      let grp1 := ((c :: rest).drop 6).takeWhile (fun ch => ch ≠ ':')
      if grp1 = [] then optionShortMatch rest else some grp1
    else optionShortMatch rest

/-- Loop body of `get_selected_option` over the split lines. -/
def optionLoop : List Str → Str
  | [] => []
  | l :: ls =>
    if markedLine l then
      match optionFullMatch l with
      | some (opt, desc) => pyStrip opt ++ ": ".toList ++ pyStrip desc
      | none =>
        match optionShortMatch l with
        | some opt => pyStrip opt
        | none => optionLoop ls
    else optionLoop ls

/-- `MarkdownParserUtils.get_selected_option`. -/
def get_selected_option (content name : Str) : Str :=
  let sec := find_section content name
  if sec = [] then []
  else optionLoop (splitOnChar '\n' sec)

/-- `MarkdownParserUtils.safe_extract_value`: fenced value first, checkbox
value as fallback. -/
def safe_extract_value (name content : Str) : Str :=
  let sec := find_section content name
  if sec = [] then []
  else
    let v := extract_between_backticks sec
    if v ≠ [] then v
    else extract_selected_checkbox_value sec

/-! ## Knowledge base loader -/

/-- A filesystem for the loader: path → `some (some content)` (readable),
`some none` (exists but read raises, the generic-`Exception` branch), absent
(`FileNotFoundError`). -/
def assocLookup (fs : List (Str × Option Str)) (p : Str) : Option (Option Str) :=
  match fs with
  | [] => none
  | e :: rest => if e.1 = p then some e.2 else assocLookup rest p

/-- Python-dict insertion: overwrite in place if the key exists, else append. -/
def dictInsert {α : Type} (k : Str) (v : α) : List (Str × α) → List (Str × α)
  | [] => [(k, v)]
  | e :: d => if e.1 = k then (k, v) :: d else e :: dictInsert k v d

/-- `os.path.join` for a POSIX path (the cases exercised by the loader). -/
def pathJoin (a b : Str) : Str :=
  if b.head? = some '/' then b
  else if a = [] then b
  else if a.getLast? = some '/' then a ++ b
  else a ++ '/' :: b

/-- `re.sub(r'^\d+\.', '', s)`: drop a leading maximal digit run followed by a
dot, if present. -/
def stripNumberingPosition (s : Str) : Str :=
  let ds := s.takeWhile Char.isDigit
  if ds ≠ [] ∧ (s.drop ds.length).head? = some '.' then s.drop (ds.length + 1) else s

/-- `os.path.basename`: the part after the last `/`. -/
def pathBasename (s : Str) : Str :=
  (splitOnChar '/' s).reverse.headD []

/-- Index of the last occurrence of character `c` in `s`. -/
def lastIdxOf (c : Char) (s : Str) : Option Nat :=
  match firstOcc [c] s.reverse with
  | none => none
  | some j => some (s.length - 1 - j)

/-- Root part of `os.path.splitext` on a separator-free name: split at the
last dot unless every character before it is a dot. -/
def splitextRoot (b : Str) : Str :=
  match lastIdxOf '.' b with
  | none => b
  | some i => if (b.take i).any (fun ch => ch ≠ '.') then b.take i else b

/-- The `for file_path in paths_to_try` loop: `FileNotFoundError` continues to
the next candidate, success breaks with the content, any other error breaks
without loading. -/
def tryPaths (fs : List (Str × Option Str)) : List Str → Option Str
  | [] => none
  | p :: ps =>
    match assocLookup fs p with
    | none => tryPaths fs ps
    | some none => none
    | some (some content) => some content

/-- The loader's environment: base directory plus filesystem. -/
structure KBEnv where
  basePath : Str
  fs : List (Str × Option Str)
deriving DecidableEq

/-- Candidate paths for one reference, after cleaning
(`KnowledgeBaseLoader.load_md_files` body). -/
def kbCandidatePaths (basePath cleanName : Str) : List Str :=
  [pathJoin basePath cleanName] ++
    (if containsSub ".".toList cleanName then []
     else [pathJoin basePath (cleanName ++ ".md".toList),
           pathJoin basePath (cleanName ++ ".markdown".toList)])

/-- One iteration of `load_md_files` over a reference. -/
def loadOneFile (env : KBEnv) (acc : List (Str × Str)) (file_name : Str) :
    List (Str × Str) :=
  if file_name = [] ∨ pyStrip file_name = [] then acc
  else
    let clean_name := stripNumberingPosition (pyStrip file_name)
    let base_name := splitextRoot (pathBasename clean_name)
    match tryPaths env.fs (kbCandidatePaths env.basePath clean_name) with
    | some content => dictInsert base_name content acc
    | none => acc

/-- `KnowledgeBaseLoader.load_md_files`. -/
def load_md_files (env : KBEnv) (knowledge_base_files : List Str) :
    List (Str × Str) :=
  knowledge_base_files.foldl (loadOneFile env) []

/-! ## Task configuration -/

/-- `LLMConfig.__init__` defaults: empty model, temperature `0.5`, no
max-tokens. -/
structure LLMConfig where
  model : Str := []
  temperature : ℚ := 0.5
  max_tokens : Option Nat := none
deriving DecidableEq

/-- Decimal digits of a number, as Python `f"{n}"` renders it. -/
def natDigits (n : Nat) : Str := Nat.toDigits 10 n

/-- The LLM sub-block isolated by `TaskConfig.load_from_markdown` (lines
429-434): start header `#### 3.<n>.1`; end header `#### 3.<n>.2` when
`section_exists` reports it (it checks for `**#### 3.<n>.2**` or
`### #### 3.<n>.2`), else `## Section 4:`. -/
def llmSection (task_section : Str) (task_num : Nat) : Str :=
  find_section_between_headers task_section
    ("#### 3.".toList ++ natDigits task_num ++ ".1".toList)
    (if section_exists task_section
        ("#### 3.".toList ++ natDigits task_num ++ ".2".toList)
     then "#### 3.".toList ++ natDigits task_num ++ ".2".toList
     else "## Section 4:".toList)

/-- Python `str.isdigit` restricted to ASCII: non-empty and all digits. -/
def pyIsDigitStr (s : Str) : Bool :=
  s ≠ [] && s.all Char.isDigit

/-- `int(s)` on an all-digit string. -/
def digitsToNat (s : Str) : Nat :=
  s.foldl (fun a c => a * 10 + (c.toNat - '0'.toNat)) 0

/-- Lines 436-462 of `TaskConfig.load_from_markdown`: model, temperature and
max-tokens from the LLM sub-block, starting from `LLMConfig()` defaults (no
assignment happens when the sub-block is empty). -/
def loadLLMConfig (task_section : Str) (task_num : Nat) : LLMConfig :=
  let ls := llmSection task_section task_num
  if ls = [] then {}
  else
    let modelv := safe_extract_value "LLM Model".toList ls
    let temp_section := find_section ls "LLM Temperature".toList
    let max_tokens_text :=
      extract_between_backticks (find_section ls "LLM Max Tokens".toList)
    { model := if modelv ≠ [] then pyStrip modelv else []
      temperature :=
        if temp_section = [] then 0.5
        else if containsSub "[X] 0.1".toList temp_section ||
                containsSub "[x] 0.1".toList temp_section then 0.1
        else if containsSub "[X] 0.9".toList temp_section ||
                containsSub "[x] 0.9".toList temp_section then 0.9
        else 0.5
      max_tokens :=
        if max_tokens_text ≠ [] ∧ pyStrip max_tokens_text ≠ [] ∧
            max_tokens_text.head? ≠ some '[' ∧ pyIsDigitStr max_tokens_text then
          some (digitsToNat max_tokens_text)
        else none }

/-- Fenced list fields: split the fenced text on newlines, keep lines that are
non-blank after stripping and whose raw form does not start with `#`, strip
each kept line. -/
def fencedList (txt : Str) : List Str :=
  ((splitOnChar '\n' txt).filter
    (fun item => pyStrip item ≠ [] ∧ item.head? ≠ some '#')).map pyStrip

/-- The `while i < len(lines)` loop of `TaskConfig._get_task_outcomes`:
accumulates numbered outcome blocks.  `outcomes` holds already-joined blocks,
`current` the lines of the block in progress, `num` the next expected outcome
number. -/
def outcomesLoop : List Str → List Str → List Str → Nat → List Str
  | [], outcomes, current, _ =>
    if current ≠ [] then outcomes ++ [List.intercalate "\n".toList current] else outcomes
  | raw :: rest, outcomes, current, num =>
    let line := pyStrip raw
    if (natDigits num ++ ".".toList).isPrefixOf line ∧
        containsSub "outcome:".toList line then
      let outcomes' :=
        if current ≠ [] then outcomes ++ [List.intercalate "\n".toList current]
        else outcomes
      outcomesLoop rest outcomes' [line] (num + 1)
    else if current ≠ [] then outcomesLoop rest outcomes (current ++ [line]) num
    else outcomesLoop rest outcomes current num

/-- `TaskConfig._get_task_outcomes`. -/
def getTaskOutcomes (content : Str) : Str :=
  let sec := find_section content "Expected Outcomes".toList
  if sec = [] then []
  else
    let txt := extract_between_backticks sec
    if txt = [] then []
    else List.intercalate "\n\n".toList (outcomesLoop (splitOnChar '\n' txt) [] [] 1)

/-- `TaskConfig` fields (initial values as in `__init__`). -/
structure TaskConfig where
  name : Str := []
  main_objective : Str := []
  description : Str := []
  language : Str := []
  expected_output : Str := []
  output_json : Option Str := none
  knowledge_base : List Str := []
  knowledge_contents : List (Str × Str) := []
  tools : List Str := []
  out_of_scope : List Str := []
  llm_config : LLMConfig := {}
deriving DecidableEq

/-- Fenced list field guarded twice (section found, fenced text non-empty),
as in the Out of Scope / Knowledge Base / Tools blocks. -/
def fencedListField (task_section name : Str) : List Str :=
  let sec := find_section task_section name
  if sec = [] then []
  else
    let txt := extract_between_backticks sec
    if txt = [] then [] else fencedList txt

/-- `TaskConfig.load_from_markdown` as a pure construction.  Every `if value:`
guard before an assignment into an empty-initialised field is equivalent to a
direct assignment and is written directly; `output_json` keeps its `None`
default when the fenced value is empty. -/
def taskLoadFromMarkdown (env : KBEnv) (task_section : Str) (task_num : Nat) :
    TaskConfig :=
  let kb := fencedListField task_section "Knowledge Base".toList
  { name := "Task ".toList ++ natDigits task_num
    main_objective :=
      extract_between_backticks (find_section task_section "Main Objective".toList)
    description := getTaskOutcomes task_section
    language :=
      extract_between_backticks (find_section task_section "Language".toList)
    expected_output :=
      extract_between_backticks (find_section task_section "Expected Output".toList)
    output_json :=
      let j := extract_between_backticks (find_section task_section "Output Json".toList)
      if j = [] then none else some j
    out_of_scope := fencedListField task_section "Out of Scope".toList
    knowledge_base := kb
    tools := fencedListField task_section "Tools".toList
    llm_config := loadLLMConfig task_section task_num
    knowledge_contents := if kb ≠ [] then load_md_files env kb else [] }

/-- Left-to-right scan of Python `str.replace`, with a fuel argument (the
caller passes the text's length, which bounds the number of scan steps, so
the fuel never runs out; structural recursion keeps the definition
kernel-reducible). -/
def replaceAllFuel (pat rep : Str) : Nat → Str → Str
  | _, [] => []
  | 0, t => t
  | fuel + 1, c :: t' =>
    if pat ≠ [] ∧ pat.isPrefixOf (c :: t') then
      rep ++ replaceAllFuel pat rep fuel ((c :: t').drop pat.length)
    else c :: replaceAllFuel pat rep fuel t'

/-- Python `str.replace`: replace every non-overlapping occurrence of `pat`,
scanning left to right (`pat` is never empty at the call sites). -/
def replaceAll (t pat rep : Str) : Str :=
  replaceAllFuel pat rep t.length t

/-- `TaskConfig.get_formatted_description`: fold over `knowledge_contents` in
insertion order, replacing `{key}` by the content whenever the placeholder is
present. -/
def get_formatted_description (tc : TaskConfig) : Str :=
  tc.knowledge_contents.foldl
    (fun text kv =>
      let placeholder := '\x7b' :: kv.1 ++ ['\x7d']
      if containsSub placeholder text then replaceAll text placeholder kv.2
      else text)
    tc.description

/-! ## Agent configuration -/

/-- `AgentConfig.__init__` defaults. -/
structure AgentConfig where
  agent_name : Str := []
  form_name : Str := []
  creation_date : Str := []
  responsible : Str := []
  version : Str := []
  interaction_type : Str := []
  role : Str := []
  field_of_work : Str := []
  expertise_level : Str := []
  professional_background : Str := []
  technical_skills : List Str := []
  resources : List Str := []
  communication_approach : Str := []
  response_style : Str := []
  proactivity_level : Str := []
  autonomy : Str := []
  problems : List Str := []
deriving DecidableEq

/-- First marked line with a full `- [X] label: description` match, formatted
as `label: description` (the `break`-on-match loops of `_load_agent_info` and
`_load_agent_config`). -/
def firstFullOption : List Str → Option Str
  | [] => none
  | l :: ls =>
    if markedLine l then
      match optionFullMatch l with
      | some (opt, desc) => some (pyStrip opt ++ ": ".toList ++ pyStrip desc)
      | none => firstFullOption ls
    else firstFullOption ls

/-- `AgentConfig._load_agent_info`: mutates the running config; sections that
are absent leave the previous field values in place. -/
def loadAgentInfo (a : AgentConfig) (content : Str) : AgentConfig :=
  let section1 :=
    find_section_between_headers content "## Section 1:".toList "## Section 2:".toList
  let a :=
    if section1 ≠ [] then
      { a with
        agent_name := safe_extract_value "Agent Name".toList section1
        creation_date := safe_extract_value "Creation Date".toList section1
        responsible := safe_extract_value "Responsible".toList section1
        version := safe_extract_value "Version".toList section1 }
    else a
  let interaction_section := find_section content "Interaction Type".toList
  if interaction_section ≠ [] then
    match firstFullOption (splitOnChar '\n' interaction_section) with
    | some v => { a with interaction_type := v }
    | none => a
  else a

/-- `AgentConfig._load_problems`. -/
def loadProblems (a : AgentConfig) (content : Str) : AgentConfig :=
  let sec := find_section content "Problems to be Solved".toList
  if sec ≠ [] then
    let txt := extract_between_backticks sec
    if txt ≠ [] then { a with problems := fencedList txt } else a
  else a

/-- `AgentConfig._load_agent_config`: Section-4 block (the second
`find_section_between_headers` call uses the literal end header `$`,
escaped). -/
def loadAgentBehavior (a : AgentConfig) (content : Str) : AgentConfig :=
  let s4 :=
    find_section_between_headers content "## Section 4:".toList "## Section 5:".toList
  let section4 :=
    if s4 = [] then
      find_section_between_headers content "## Section 4:".toList "$".toList
    else s4
  if section4 = [] then a
  else
    let a :=
      let role_section := find_section section4 "Role Title".toList
      if role_section ≠ [] then
        { a with role := extract_between_backticks role_section } else a
    let a :=
      let field_section := find_section section4 "Field of Work".toList
      if field_section ≠ [] then
        { a with field_of_work := extract_between_backticks field_section } else a
    let a :=
      let background_section := find_section section4 "Professional Background".toList
      if background_section ≠ [] then
        { a with professional_background := extract_between_backticks background_section }
      else a
    let a :=
      let expertise_section := find_section section4 "Expertise Level".toList
      if expertise_section ≠ [] then
        match firstFullOption (splitOnChar '\n' expertise_section) with
        | some v => { a with expertise_level := v }
        | none => a
      else a
    let a :=
      let skills_section := find_section section4 "Required Technical Skills".toList
      if skills_section ≠ [] then
        let skills := extract_between_backticks skills_section
        if skills ≠ [] then { a with technical_skills := fencedList skills } else a
      else a
    let a :=
      let resources_section := find_section section4 "Resources".toList
      if resources_section ≠ [] then
        let resources := extract_between_backticks resources_section
        if resources ≠ [] then { a with resources := fencedList resources } else a
      else a
    { a with
      communication_approach := get_selected_option section4 "Communication Approach".toList
      response_style := get_selected_option section4 "Response Style".toList
      proactivity_level := get_selected_option section4 "Proactivity Level".toList
      autonomy := get_selected_option section4 "Autonomy".toList }

/-- `AgentConfig.load_from_markdown` (each sub-step's internal exceptions are
caught inside the step; none escape). -/
def agentLoadFromMarkdown (a : AgentConfig) (content : Str) : AgentConfig :=
  loadAgentBehavior (loadProblems (loadAgentInfo a content) content) content

/-! ## Config provider -/

/-- The provider's mutable snapshot: last-modified timestamp (a float in the
source, modelled as `ℚ`, initially `0`), the agent config and the task
mapping (a Python dict, keyed `Task<n>`). -/
structure ProviderState where
  lastModified : ℚ := 0
  agent : AgentConfig := {}
  tasks : List (Str × TaskConfig) := []
deriving DecidableEq

/-- One observation of the document file: the result of `stat` (`none` = the
call raises), the result of `open`/`read` (`none` = it raises), and the
knowledge-base environment used for any task parsing. -/
structure DocObservation where
  statResult : Option ℚ
  readResult : Option Str
  kb : KBEnv
deriving DecidableEq

/-- The slice of the document between `## Section 3:` and `## Section 4:`. -/
def tasksRegion (content : Str) : Str :=
  find_section_between_headers content "## Section 3:".toList "## Section 4:".toList

/-- The slice of the Section-3 region for task `n`: between `### 3.<n>` and
`### 3.<n+1>` (or `## Section 4:` for `n = 9`). -/
def taskSlice (tasks_section : Str) (n : Nat) : Str :=
  find_section_between_headers tasks_section
    ("### 3.".toList ++ natDigits n)
    (if n < 9 then "### 3.".toList ++ natDigits (n + 1) else "## Section 4:".toList)

/-- Task `n`'s subsection of the whole document, as the provider locates it. -/
def taskSubsection (content : Str) (n : Nat) : Str :=
  taskSlice (tasksRegion content) n

/-- One iteration of the `for task_num in range(1, 10)` loop of
`ExpandevConfigProvider._load_tasks_config`. -/
def loadTaskStep (ts : Str) (kb : KBEnv) (d : List (Str × TaskConfig)) (n : Nat) :
    List (Str × TaskConfig) :=
  let task_section := taskSlice ts n
  if task_section = [] then d
  else dictInsert ("Task".toList ++ natDigits n) (taskLoadFromMarkdown kb task_section n) d

/-- `ExpandevConfigProvider._load_tasks_config`: note that the existing task
dict is only ever inserted into, never cleared. -/
def loadTasksConfig (prev : List (Str × TaskConfig)) (kb : KBEnv) (content : Str) :
    List (Str × TaskConfig) :=
  let ts := tasksRegion content
  if ts = [] then prev
  else [1, 2, 3, 4, 5, 6, 7, 8, 9].foldl (loadTaskStep ts kb) prev

/-- The body of the `try` block of `ExpandevConfigProvider._load_config`:
`stat`, the mtime guard, `read`, then the two parses (whose own exceptions are
caught internally).  `Except.error` is an escaping exception; the `Bool`
records whether the file content was re-parsed. -/
def loadConfigAttempt (s : ProviderState) (d : DocObservation) :
    Except Unit (Bool × ProviderState) :=
  match d.statResult with
  | none => .error ()
  | some mtime =>
    if mtime ≤ s.lastModified then .ok (false, s)
    else
      match d.readResult with
      | none => .error ()
      | some content =>
        .ok (true,
          { lastModified := mtime
            agent := agentLoadFromMarkdown s.agent content
            tasks := loadTasksConfig s.tasks d.kb content })

/-- `ExpandevConfigProvider._load_config`: the surrounding `try/except` logs
any escaping exception and leaves the snapshot untouched. -/
def loadConfigRun (s : ProviderState) (d : DocObservation) : Bool × ProviderState :=
  match loadConfigAttempt s d with
  | .ok r => r
  | .error _ => (false, s)

/-- `ExpandevConfigProvider.force_reload` delegates to `_load_config`. -/
def forceReload (s : ProviderState) (d : DocObservation) : Bool × ProviderState :=
  loadConfigRun s d

/-- The snapshot `ExpandevConfigProvider.__init__` starts from:
`last_modified = 0`, fresh AgentConfig, empty task dict. -/
def initialProviderState : ProviderState := {}

/-- `ExpandevConfigProvider.__init__`: builds the initial snapshot and runs
`_load_config` once (the constructor itself has no exception handler; only
`_load_config`'s internal one). -/
def initProvider (d : DocObservation) : ProviderState :=
  (loadConfigRun initialProviderState d).2

instance : Inhabited LLMConfig := ⟨{}⟩

instance : Inhabited TaskConfig := ⟨{}⟩

instance : Inhabited AgentConfig := ⟨{}⟩

instance : Inhabited ProviderState := ⟨{}⟩

/-- The key under which task `n` is stored. -/
def taskKey (n : Nat) : Str := "Task".toList ++ natDigits n

/-- Second definition for the refinement comparison of the LLM sub-block:
this one follows the specification's words — the region from the first
`#### 3.<n>.1` up to the first following occurrence of `#### 3.<n>.2`
whenever that header occurs in the subsection, and only when it is absent up
to the next `## Section 4:` marker. -/
def claimedLLMSection (task_section : Str) (task_num : Nat) : Str :=
  find_section_between_headers task_section
    ("#### 3.".toList ++ natDigits task_num ++ ".1".toList)
    (if containsSub ("#### 3.".toList ++ natDigits task_num ++ ".2".toList)
        task_section
     then "#### 3.".toList ++ natDigits task_num ++ ".2".toList
     else "## Section 4:".toList)

/-- A task subsection containing both a `#### 3.1.1` and a `#### 3.1.2`
header, with the temperature checkbox after the `.2` header. -/
def c1FailingTask : Str :=
  "#### 3.1.1 LLM\n**LLM Model**\n```gpt-4```\n#### 3.1.2 Other\n**LLM Temperature**\n- [x] 0.1\n".toList

/-- A document whose Section 3 contains tasks 3.1 and 3.2. -/
def docWithTwoTasks : Str :=
  "## Section 3:\n### 3.1\nA\n### 3.2\nB\n## Section 4:\n".toList

/-- The same document with the 3.2 subsection removed. -/
def docWithOneTask : Str :=
  "## Section 3:\n### 3.1\nA\n## Section 4:\n".toList

/-- An empty knowledge-base environment. -/
def emptyKB : KBEnv := ⟨"knowledge_base/definition".toList, []⟩

/-- A small document with a single task subsection. -/
def docOneSection3 : Str := "## Section 3:\n### 3.1\nHello\n".toList

/-! ## Helper lemmas -/

theorem containsSub_eq_false_iff {p t : Str} :
    containsSub p t = false ↔ firstOcc p t = none := by
  cases h : firstOcc p t <;> simp [containsSub, h]

theorem firstOcc_cons_eq_none {p : Str} {c : Char} {t : Str}
    (h : firstOcc p (c :: t) = none) :
    p.isPrefixOf (c :: t) = false ∧ firstOcc p t = none := by
  by_cases hp : p.isPrefixOf (c :: t)
  · simp [firstOcc, hp] at h
  · refine ⟨by simp only [Bool.not_eq_true] at hp; exact hp, ?_⟩
    rw [firstOcc, if_neg hp] at h
    simpa using h

theorem firstOcc_nil {p : Str} (hp : p ≠ []) : firstOcc p [] = none := by
  cases p with
  | nil => exact absurd rfl hp
  | cons c cs => simp [firstOcc, List.isPrefixOf]

theorem containsSub_nil {p : Str} (hp : p ≠ []) : containsSub p [] = false := by
  simp [containsSub, firstOcc_nil hp]

theorem find_section_nil (name : Str) : find_section [] name = [] := by
  have h1 : firstOcc ("**".toList ++ name ++ "**".toList) [] = none :=
    firstOcc_nil (by simp)
  have h2 : firstOcc ("### ".toList ++ name) [] = none :=
    firstOcc_nil (by simp)
  simp only [find_section]
  rw [h1, h2]

theorem find_section_between_headers_nil {s : Str} (hs : s ≠ []) (e : Str) :
    find_section_between_headers [] s e = [] := by
  simp [find_section_between_headers, firstOcc_nil hs]

theorem replaceAllFuel_of_firstOcc_none {pat rep : Str} :
    ∀ (fuel : Nat) (t : Str), firstOcc pat t = none →
      replaceAllFuel pat rep fuel t = t := by
  intro fuel
  induction fuel with
  | zero => intro t _; cases t <;> rfl
  | succ f ih =>
    intro t ht
    cases t with
    | nil => rfl
    | cons c t' =>
      obtain ⟨hpre, hrest⟩ := firstOcc_cons_eq_none ht
      rw [replaceAllFuel, if_neg (fun hh => by simp [hpre] at hh)]
      rw [ih t' hrest]

theorem replaceAll_of_firstOcc_none {t pat rep : Str}
    (h : firstOcc pat t = none) : replaceAll t pat rep = t :=
  replaceAllFuel_of_firstOcc_none t.length t h

theorem checkboxLoop_filter (ls : List Str) :
    checkboxLoop ls = checkboxLoop (ls.filter markedLine) := by
  induction ls with
  | nil => rfl
  | cons l t ih =>
    by_cases hm : markedLine l
    · cases hcm : checkboxMatch l <;>
        simp [checkboxLoop, List.filter_cons, hm, hcm, ih]
    · simp only [Bool.not_eq_true] at hm
      simp [checkboxLoop, List.filter_cons, hm, ih]

theorem extract_selected_eq_loop_filter (s : Str) :
    extract_selected_checkbox_value s =
      checkboxLoop ((splitOnChar '\n' s).filter markedLine) := by
  by_cases hs : s = []
  · subst hs
    have : markedLine [] = false := by decide
    simp [extract_selected_checkbox_value, splitOnChar, List.filter_cons, this,
      checkboxLoop]
  · rw [extract_selected_checkbox_value, if_neg hs, checkboxLoop_filter]

theorem checkboxLoop_of_all_unmarked {ls : List Str}
    (h : ∀ l ∈ ls, markedLine l = false) : checkboxLoop ls = [] := by
  induction ls with
  | nil => rfl
  | cons l t ih =>
    have hl := h l (by simp)
    simp only [checkboxLoop, hl, Bool.false_eq_true, if_false]
    exact ih (fun x hx => h x (by simp [hx]))

theorem mem_keys_dictInsert {α : Type} {k k' : Str} {v : α}
    {d : List (Str × α)} :
    k' ∈ (dictInsert k v d).map Prod.fst ↔ k' = k ∨ k' ∈ d.map Prod.fst := by
  induction d with
  | nil =>
    simp only [dictInsert, List.map_cons, List.map_nil, List.mem_singleton,
      List.not_mem_nil, or_false]
  | cons e t ih =>
    by_cases he : e.1 = k
    · rw [dictInsert, if_pos he]
      simp only [List.map_cons, List.mem_cons, he]
      tauto
    · rw [dictInsert, if_neg he]
      simp only [List.map_cons, List.mem_cons, ih]
      tauto

theorem mem_keys_loadTaskStep {ts : Str} {kb : KBEnv} {d : List (Str × TaskConfig)}
    {n : Nat} {k : Str} :
    k ∈ (loadTaskStep ts kb d n).map Prod.fst ↔
      (taskSlice ts n ≠ [] ∧ k = taskKey n) ∨ k ∈ d.map Prod.fst := by
  rw [loadTaskStep]
  by_cases hs : taskSlice ts n = []
  · simp [hs]
  · rw [if_neg hs]
    rw [show ("Task".toList ++ natDigits n) = taskKey n from rfl] at *
    simp only [mem_keys_dictInsert, hs, ne_eq, not_false_iff, true_and]

theorem mem_keys_foldl_loadTaskStep {ts : Str} {kb : KBEnv} {k : Str} :
    ∀ (ms : List Nat) (d : List (Str × TaskConfig)),
      k ∈ (ms.foldl (loadTaskStep ts kb) d).map Prod.fst ↔
        k ∈ d.map Prod.fst ∨ ∃ m ∈ ms, taskSlice ts m ≠ [] ∧ k = taskKey m := by
  intro ms
  induction ms with
  | nil => simp
  | cons m t ih =>
    intro d
    rw [List.foldl_cons, ih, mem_keys_loadTaskStep]
    simp only [List.mem_cons]
    constructor
    · rintro ((⟨hs, hk⟩ | hd) | ⟨m', hm', hs, hk⟩)
      · exact Or.inr ⟨m, Or.inl rfl, hs, hk⟩
      · exact Or.inl hd
      · exact Or.inr ⟨m', Or.inr hm', hs, hk⟩
    · rintro (hd | ⟨m', (rfl | hm'), hs, hk⟩)
      · exact Or.inl (Or.inr hd)
      · exact Or.inl (Or.inl ⟨hs, hk⟩)
      · exact Or.inr ⟨m', hm', hs, hk⟩

theorem taskKey_inj_lt10 :
    ∀ m n : Fin 10, (taskKey m.val = taskKey n.val ↔ m = n) := by decide

theorem taskSlice_of_nil_region {n : Nat} : taskSlice [] n = [] := by
  apply find_section_between_headers_nil
  simp

theorem tryPaths_of_all_absent {fs : List (Str × Option Str)} {ps : List Str}
    (h : ∀ p ∈ ps, assocLookup fs p = none) : tryPaths fs ps = none := by
  induction ps with
  | nil => rfl
  | cons p t ih =>
    rw [tryPaths, h p (by simp)]
    exact ih (fun q hq => h q (by simp [hq]))

theorem loadOneFile_of_no_candidate {env : KBEnv} {acc : List (Str × Str)}
    {f : Str}
    (h : ∀ p ∈ kbCandidatePaths env.basePath (stripNumberingPosition (pyStrip f)),
      assocLookup env.fs p = none) :
    loadOneFile env acc f = acc := by
  rw [loadOneFile]
  by_cases hb : f = [] ∨ pyStrip f = []
  · rw [if_pos hb]
  · rw [if_neg hb]
    simp only [tryPaths_of_all_absent h]

theorem firstOcc_fence_append {v : Str}
    (hnc : containsSub "```".toList v = false)
    (hlast : v.getLast? ≠ some '`') :
    firstOcc "```".toList (v ++ "```".toList) = some v.length := by
  induction v with
  | nil =>
    have : ("```".toList).isPrefixOf ("```".toList) = true := by decide
    simp [firstOcc, List.isPrefixOf]
  | cons c v' ih =>
    have hfo : firstOcc "```".toList (c :: v') = none :=
      containsSub_eq_false_iff.mp hnc
    obtain ⟨hpre, hrest⟩ := firstOcc_cons_eq_none hfo
    have hnc' : containsSub "```".toList v' = false :=
      containsSub_eq_false_iff.mpr hrest
    have hnotpre : ("```".toList).isPrefixOf (c :: (v' ++ "```".toList)) = false := by
      cases v' with
      | nil =>
        have hc : c ≠ '`' := by
          intro hc
          exact hlast (by simp [hc, List.getLast?])
        simp only [List.nil_append]
        simp [List.isPrefixOf]
        exact fun hh => hc hh.symm
      | cons d v'' =>
        cases v'' with
        | nil =>
          have hd : d ≠ '`' := by
            intro hd
            exact hlast (by simp [hd, List.getLast?])
          simp [List.isPrefixOf]
          exact fun _ hh2 => hd hh2.symm
        | cons e v''' =>
          by_cases hcde : c = '`' ∧ d = '`' ∧ e = '`'
          · obtain ⟨rfl, rfl, rfl⟩ := hcde
            exfalso
            have : ("```".toList).isPrefixOf ('`' :: '`' :: '`' :: v''') = true := by
              simp [List.isPrefixOf]
            simp [this] at hpre
          · show List.isPrefixOf _ _ = false
            have hn : ¬('`' = c ∧ '`' = d ∧ '`' = e) := fun hh =>
              hcde ⟨hh.1.symm, hh.2.1.symm, hh.2.2.symm⟩
            simp only [List.cons_append, List.isPrefixOf, show "```".toList =
              ['`', '`', '`'] from rfl]
            simp only [beq_eq_false_iff_ne, Bool.and_eq_false_iff, ne_eq,
              List.isPrefixOf]
            by_cases h1 : '`' = c <;> by_cases h2 : '`' = d <;>
              by_cases h3 : '`' = e <;> tauto
    cases v' with
    | nil =>
      have hc : c ≠ '`' := by
        intro hc
        exact hlast (by simp [hc, List.getLast?])
      have h0 : firstOcc "```".toList ([] ++ "```".toList) = some 0 := by
        simp [firstOcc, List.isPrefixOf]
      rw [List.cons_append, firstOcc, if_neg (by rw [hnotpre]; simp), h0]
      rfl
    | cons d v'' =>
      have hlast' : (d :: v'').getLast? ≠ some '`' := by
        intro hh
        apply hlast
        rw [List.getLast?_cons_cons] at *
        cases v'' with
        | nil => simpa using hh
        | cons e v''' => simpa using hh
      have := ih hnc' hlast'
      rw [List.cons_append, firstOcc, if_neg (by rw [hnotpre]; simp), this]
      rfl

/-! ## Claim theorems -/

/-- C4: a reload attempt (`force_reload` or a file-modification event, both of
which run `_load_config`) whose observed mtime is less than or equal to the
last recorded mtime is a no-op: the snapshot (AgentConfig, tasks mapping,
last-modified timestamp) is returned unchanged and the `Bool` flag records
that the file content was not re-parsed (the `read` result is never
consulted). -/
theorem c4_noop_reload (s : ProviderState) (d : DocObservation) (m : ℚ)
    (hstat : d.statResult = some m) (hle : m ≤ s.lastModified) :
    loadConfigRun s d = (false, s) ∧ forceReload s d = (false, s) := by
  have hok : loadConfigAttempt s d = .ok (false, s) := by
    simp only [loadConfigAttempt, hstat, if_pos hle]
  constructor
  · rw [loadConfigRun, hok]
  · rw [forceReload, loadConfigRun, hok]

theorem c4_noop_reload_witness :
    loadConfigRun ⟨2, {}, []⟩ ⟨some 1, some [], ⟨[], []⟩⟩ =
      (false, (⟨2, {}, []⟩ : ProviderState)) ∧
    forceReload ⟨2, {}, []⟩ ⟨some 1, some [], ⟨[], []⟩⟩ =
      (false, (⟨2, {}, []⟩ : ProviderState)) :=
  c4_noop_reload ⟨2, {}, []⟩ ⟨some 1, some [], ⟨[], []⟩⟩ 1 rfl (by norm_num)

/-- C2, counterexample: when the very first load cannot read the file, the
body of `_load_config` raises (`Except.error`), but the `try/except` inside
`_load_config` catches it, so the constructor completes with the empty
initial snapshot instead of propagating a startup-level error. -/
theorem c2_counterexample :
    loadConfigAttempt initialProviderState ⟨some 1, none, ⟨[], []⟩⟩ =
      .error () ∧
    initProvider ⟨some 1, none, ⟨[], []⟩⟩ = initialProviderState := by
  constructor
  · rfl
  · rfl

/-- C2, amended: a read failure never propagates: on the very first load the
constructor completes with the empty initial snapshot (error only logged),
and on any later reload a read failure leaves the previously parsed snapshot
in effect, unchanged. -/
theorem c2_read_failure_keeps_snapshot :
    (∀ d : DocObservation, d.readResult = none →
        initProvider d = initialProviderState) ∧
    (∀ (s : ProviderState) (d : DocObservation), d.readResult = none →
        loadConfigRun s d = (false, s)) := by
  have key : ∀ (s : ProviderState) (d : DocObservation), d.readResult = none →
      loadConfigRun s d = (false, s) := by
    intro s d hr
    cases hstat : d.statResult with
    | none => simp only [loadConfigRun, loadConfigAttempt, hstat]
    | some m =>
      by_cases hle : m ≤ s.lastModified
      · simp only [loadConfigRun, loadConfigAttempt, hstat, if_pos hle]
      · simp only [loadConfigRun, loadConfigAttempt, hstat, if_neg hle, hr]
  exact ⟨fun d hr => by rw [initProvider, key _ _ hr], key⟩

theorem c2_read_failure_witness :
    initProvider ⟨some 1, none, ⟨[], []⟩⟩ = initialProviderState ∧
    loadConfigRun ⟨5, {}, []⟩ ⟨some 7, none, ⟨[], []⟩⟩ =
      (false, (⟨5, {}, []⟩ : ProviderState)) :=
  ⟨c2_read_failure_keeps_snapshot.1 _ rfl,
    c2_read_failure_keeps_snapshot.2 _ _ rfl⟩

/-- C9: every `MarkdownParserUtils` extractor is a total function of its
input string (each is a plain recursive definition in this embedding, as in
the source each body is wrapped in a catch-all `try/except`), and each
returns its empty/absent value when the pattern it searches for is not
found. -/
theorem c9_extractors_absent_empty :
    (∀ content name : Str,
        containsSub ("**".toList ++ name ++ "**".toList) content = false →
        containsSub ("### ".toList ++ name) content = false →
        find_section content name = []) ∧
    (∀ text : Str, containsSub "```".toList text = false →
        extract_between_backticks text = []) ∧
    (∀ sec : Str, (∀ l ∈ splitOnChar '\n' sec, markedLine l = false) →
        extract_selected_checkbox_value sec = []) ∧
    (∀ content name : Str,
        containsSub ("**".toList ++ name ++ "**".toList) content = false →
        containsSub ("### ".toList ++ name) content = false →
        section_exists content name = false) ∧
    (∀ content s e : Str, containsSub s content = false →
        find_section_between_headers content s e = []) ∧
    (∀ content name : Str, find_section content name = [] →
        get_selected_option content name = []) ∧
    (∀ name content : Str, find_section content name = [] →
        safe_extract_value name content = []) := by
  refine ⟨?_, ?_, ?_, ?_, ?_, ?_, ?_⟩
  · intro content name h1 h2
    have o1 := containsSub_eq_false_iff.mp h1
    have o2 := containsSub_eq_false_iff.mp h2
    simp only [find_section]
    rw [o1, o2]
  · intro text h
    by_cases ht : text = []
    · rw [extract_between_backticks, if_pos ht]
    · rw [extract_between_backticks, if_neg ht, containsSub_eq_false_iff.mp h]
  · intro sec h
    rw [extract_selected_eq_loop_filter]
    have : (splitOnChar '\n' sec).filter markedLine = [] := by
      rw [List.filter_eq_nil_iff]
      intro a ha
      simp [h a ha]
    rw [this]
    rfl
  · intro content name h1 h2
    rw [section_exists, h1, h2]
    rfl
  · intro content s e h
    rw [find_section_between_headers, containsSub_eq_false_iff.mp h]
  · intro content name h
    rw [get_selected_option]
    simp only [h, if_pos]
  · intro name content h
    rw [safe_extract_value]
    simp only [h, if_pos]

theorem c9_extractors_witness :
    find_section "abc".toList "Zed".toList = [] ∧
    extract_between_backticks "abc".toList = [] ∧
    extract_selected_checkbox_value "- [ ] a\nplain".toList = [] ∧
    section_exists "abc".toList "Zed".toList = false ∧
    find_section_between_headers "abc".toList "Q".toList "R".toList = [] ∧
    get_selected_option "abc".toList "Zed".toList = [] ∧
    safe_extract_value "Zed".toList "abc".toList = [] :=
  ⟨c9_extractors_absent_empty.1 _ _ (by decide) (by decide),
    c9_extractors_absent_empty.2.1 _ (by decide),
    c9_extractors_absent_empty.2.2.1 _ (by decide),
    c9_extractors_absent_empty.2.2.2.1 _ _ (by decide) (by decide),
    c9_extractors_absent_empty.2.2.2.2.1 _ _ _ (by decide),
    c9_extractors_absent_empty.2.2.2.2.2.1 _ _ (by decide),
    c9_extractors_absent_empty.2.2.2.2.2.2 _ _ (by decide)⟩

/-- C10: `get_formatted_description` is a sequential whole-string replacement
in the insertion order of `knowledge_contents` (the source's
`if placeholder in text` guard is a no-op, since `str.replace` leaves the text
unchanged when the placeholder is absent); occurrences introduced by an
earlier key's content are replaced by a later key (third conjunct);
placeholders with no matching key are left untouched (fourth conjunct); an
empty `knowledge_contents` returns the description verbatim (second
conjunct). -/
theorem c10_formatted_description :
    (∀ tc : TaskConfig, get_formatted_description tc =
        tc.knowledge_contents.foldl
          (fun text kv => replaceAll text ('\x7b' :: kv.1 ++ ['\x7d']) kv.2)
          tc.description) ∧
    (∀ desc : Str,
        get_formatted_description { description := desc } = desc) ∧
    (get_formatted_description
        { description := "{a}".toList,
          knowledge_contents :=
            [("a".toList, "{b}".toList), ("b".toList, "X".toList)] } =
      "X".toList) ∧
    (get_formatted_description
        { description := "{c} {a}".toList,
          knowledge_contents := [("a".toList, "1".toList)] } =
      "{c} 1".toList) := by
  have bridge : ∀ (kcs : List (Str × Str)) (t : Str),
      kcs.foldl
        (fun text kv =>
          let placeholder := '\x7b' :: kv.1 ++ ['\x7d']
          if containsSub placeholder text then replaceAll text placeholder kv.2
          else text) t =
      kcs.foldl
        (fun text kv => replaceAll text ('\x7b' :: kv.1 ++ ['\x7d']) kv.2) t := by
    intro kcs
    induction kcs with
    | nil => intro t; rfl
    | cons kv rest ih =>
      intro t
      rw [List.foldl_cons, List.foldl_cons]
      have harg :
          (let placeholder := '\x7b' :: kv.1 ++ ['\x7d']
           if containsSub placeholder t then replaceAll t placeholder kv.2
           else t) = replaceAll t ('\x7b' :: kv.1 ++ ['\x7d']) kv.2 := by
        by_cases hc : containsSub ('\x7b' :: kv.1 ++ ['\x7d']) t = true
        · simp only [hc, if_pos]
        · simp only [Bool.not_eq_true] at hc
          simp only [hc, Bool.false_eq_true, if_false]
          exact (replaceAll_of_firstOcc_none (containsSub_eq_false_iff.mp hc)).symm
      rw [harg, ih]
  refine ⟨fun tc => by rw [get_formatted_description, bridge], ?_, ?_, ?_⟩
  · intro desc; rfl
  · decide
  · decide

/-- C6: for every parsed task, the temperature stored in
`TaskConfig.llm_config` follows exactly the checkbox logic over the
`LLM Temperature` section of the LLM sub-block — `0.1` when a marked `0.1`
checkbox literal appears, else `0.9` when a marked `0.9` appears, else `0.5`
(also when the section or the whole sub-block is absent) — and is therefore
always one of `{0.1, 0.5, 0.9}`. -/
theorem c6_temperature (env : KBEnv) (ts : Str) (n : Nat) :
    ((taskLoadFromMarkdown env ts n).llm_config.temperature =
      (if containsSub "[X] 0.1".toList
            (find_section (llmSection ts n) "LLM Temperature".toList) ||
          containsSub "[x] 0.1".toList
            (find_section (llmSection ts n) "LLM Temperature".toList) then 0.1
       else if containsSub "[X] 0.9".toList
            (find_section (llmSection ts n) "LLM Temperature".toList) ||
          containsSub "[x] 0.9".toList
            (find_section (llmSection ts n) "LLM Temperature".toList) then 0.9
       else 0.5)) ∧
    (taskLoadFromMarkdown env ts n).llm_config.temperature ∈
      ({0.1, 0.5, 0.9} : Set ℚ) := by
  have hproj : (taskLoadFromMarkdown env ts n).llm_config = loadLLMConfig ts n := by
    rw [taskLoadFromMarkdown]
  have heq : (loadLLMConfig ts n).temperature =
      (if containsSub "[X] 0.1".toList
            (find_section (llmSection ts n) "LLM Temperature".toList) ||
          containsSub "[x] 0.1".toList
            (find_section (llmSection ts n) "LLM Temperature".toList) then 0.1
       else if containsSub "[X] 0.9".toList
            (find_section (llmSection ts n) "LLM Temperature".toList) ||
          containsSub "[x] 0.9".toList
            (find_section (llmSection ts n) "LLM Temperature".toList) then 0.9
       else 0.5) := by
    by_cases hls : llmSection ts n = []
    · rw [loadLLMConfig, if_pos hls, hls, find_section_nil]
      have c1 : containsSub "[X] 0.1".toList ([] : Str) = false :=
        containsSub_nil (by decide)
      have c2 : containsSub "[x] 0.1".toList ([] : Str) = false :=
        containsSub_nil (by decide)
      have c3 : containsSub "[X] 0.9".toList ([] : Str) = false :=
        containsSub_nil (by decide)
      have c4 : containsSub "[x] 0.9".toList ([] : Str) = false :=
        containsSub_nil (by decide)
      rw [c1, c2, c3, c4]
      rfl
    · simp only [loadLLMConfig, if_neg hls]
      by_cases hsec : find_section (llmSection ts n) "LLM Temperature".toList = []
      · rw [if_pos hsec, hsec]
        rw [if_neg (by decide), if_neg (by decide)]
      · rw [if_neg hsec]
  refine ⟨hproj ▸ heq, ?_⟩
  rw [hproj, heq]
  by_cases h1 : (containsSub "[X] 0.1".toList
      (find_section (llmSection ts n) "LLM Temperature".toList) ||
    containsSub "[x] 0.1".toList
      (find_section (llmSection ts n) "LLM Temperature".toList)) = true
  · rw [if_pos h1]
    simp
  · by_cases h2 : (containsSub "[X] 0.9".toList
        (find_section (llmSection ts n) "LLM Temperature".toList) ||
      containsSub "[x] 0.9".toList
        (find_section (llmSection ts n) "LLM Temperature".toList)) = true
    · rw [if_neg h1, if_pos h2]
      simp
    · rw [if_neg h1, if_neg h2]
      simp

/-- C5, counterexample: for `v = "a\x60"` (which contains no triple backtick
but ends in a backtick), fencing and extracting yields `"a"`, not
`v.strip() = "a\x60"`: the lazy closing fence consumes the trailing
backtick. -/
theorem c5_counterexample :
    containsSub "```".toList "a`".toList = false ∧
    pyStrip "a`".toList = "a`".toList ∧
    extract_between_backticks ("```".toList ++ "a`".toList ++ "```".toList) =
      "a".toList ∧
    "a".toList ≠ "a`".toList := by decide

/-- C5, amended: for every string `v` that contains no triple backtick *and
does not end in a backtick*, surrounding `v` with triple-backtick fences and
extracting round-trips to `v.strip()`. -/
theorem c5_roundtrip (v : Str)
    (h1 : containsSub "```".toList v = false)
    (h2 : v.getLast? ≠ some '`') :
    extract_between_backticks ("```".toList ++ v ++ "```".toList) = pyStrip v := by
  have hform : "```".toList ++ v ++ "```".toList =
      '`' :: '`' :: '`' :: (v ++ "```".toList) := by simp
  rw [hform, extract_between_backticks, if_neg (by simp)]
  have h0 : firstOcc "```".toList ('`' :: '`' :: '`' :: (v ++ "```".toList)) =
      some 0 := by
    rw [firstOcc, if_pos (by simp [List.isPrefixOf])]
  simp only [h0, Nat.zero_add]
  have hdrop : ('`' :: '`' :: '`' :: (v ++ "```".toList)).drop 3 =
      v ++ "```".toList := rfl
  rw [hdrop]
  simp only [firstOcc_fence_append h1 h2, List.take_left]

theorem c5_roundtrip_witness :
    containsSub "```".toList " hi ".toList = false ∧
    " hi ".toList.getLast? ≠ some '`' ∧
    extract_between_backticks ("```".toList ++ " hi ".toList ++ "```".toList) =
      pyStrip " hi ".toList :=
  ⟨by decide, by decide, c5_roundtrip _ (by decide) (by decide)⟩

/-- C7, counterexample: in the section `"junk [X]\n- [X] b"` the first line in
document order containing a mark (`"junk [X]"`) does not match the extraction
regex, so its label portion is empty — yet the extractor returns `"b"`, the
label of the *second* marked line, so later marked lines are not ignored and
the result is not the first marked line's label. -/
theorem c7_counterexample :
    (splitOnChar '\n' "junk [X]\n- [X] b".toList).filter markedLine =
      ["junk [X]".toList, "- [X] b".toList] ∧
    checkboxMatch "junk [X]".toList = none ∧
    extract_selected_checkbox_value "junk [X]\n- [X] b".toList = "b".toList ∧
    "b".toList ≠ ([] : Str) := by decide

/-- C7, amended: the result of `extract_selected_checkbox_value` depends only
on the subsequence of marked lines (so it is invariant under any permutation
— indeed any rewriting — of the unmarked lines), and when the first marked
line matches the checkbox pattern `- [X] label` its stripped label is
returned, ignoring all later marked lines; a marked line that does not match
the pattern is skipped. -/
theorem c7_marked_lines_determine :
    (∀ s1 s2 : Str,
        (splitOnChar '\n' s1).filter markedLine =
          (splitOnChar '\n' s2).filter markedLine →
        extract_selected_checkbox_value s1 = extract_selected_checkbox_value s2) ∧
    (∀ (s l : Str) (ls : List Str) (v : Str),
        (splitOnChar '\n' s).filter markedLine = l :: ls →
        checkboxMatch l = some v →
        extract_selected_checkbox_value s = pyStrip v) := by
  constructor
  · intro s1 s2 h
    rw [extract_selected_eq_loop_filter, extract_selected_eq_loop_filter, h]
  · intro s l ls v hf hcm
    have hmem : l ∈ (splitOnChar '\n' s).filter markedLine := by
      rw [hf]; exact List.mem_cons_self l ls
    have hmark : markedLine l = true := (List.mem_filter.mp hmem).2
    rw [extract_selected_eq_loop_filter, hf, checkboxLoop, if_pos hmark, hcm]

theorem c7_marked_lines_witness :
    extract_selected_checkbox_value "x\n- [X] a\ny".toList =
      extract_selected_checkbox_value "y2\n- [X] a".toList ∧
    extract_selected_checkbox_value "- [X] a\n- [x] b".toList =
      pyStrip "a".toList :=
  ⟨c7_marked_lines_determine.1 _ _ (by decide),
    c7_marked_lines_determine.2 "- [X] a\n- [x] b".toList "- [X] a".toList
      ["- [x] b".toList] "a".toList (by decide) (by decide)⟩

/-- C8: loading `["2.reqs", "missing_file"]` against the default base
directory when the filesystem holds exactly
`knowledge_base/definition/reqs.md` yields the single-entry mapping
`reqs ↦ content` (the numbering prefix `2.` is stripped, the `.md` candidate
resolves) and the unresolvable reference is skipped; in general a reference
none of whose candidate paths exists is skipped without effect on the
result. -/
theorem c8_kb_loading :
    (load_md_files
        ⟨"knowledge_base/definition".toList,
          [("knowledge_base/definition/reqs.md".toList, some "REQS".toList)]⟩
        ["2.reqs".toList, "missing_file".toList] =
      [("reqs".toList, "REQS".toList)]) ∧
    (∀ (env : KBEnv) (pre post : List Str) (f : Str),
        (∀ p ∈ kbCandidatePaths env.basePath (stripNumberingPosition (pyStrip f)),
          assocLookup env.fs p = none) →
        load_md_files env (pre ++ f :: post) = load_md_files env (pre ++ post)) := by
  constructor
  · decide
  · intro env pre post f h
    rw [load_md_files, load_md_files, List.foldl_append, List.foldl_append,
      List.foldl_cons, loadOneFile_of_no_candidate h]

theorem c8_kb_loading_witness :
    load_md_files ⟨"kb".toList, []⟩ (["a.md".toList] ++ "nope".toList :: []) =
      load_md_files ⟨"kb".toList, []⟩ (["a.md".toList] ++ []) :=
  c8_kb_loading.2 ⟨"kb".toList, []⟩ ["a.md".toList] [] "nope".toList (by decide)

/-- C3, counterexample: load a document whose Section 3 holds tasks 3.1 and
3.2, then reload (with an advanced mtime) the same document with the 3.2
subsection removed.  The reload re-parses (flag `true`) and the new document
yields an empty 3.2 subsection, yet `Task2` is still a key of the tasks
mapping afterwards, because `_load_tasks_config` only inserts into the
existing dict and never clears it. -/
theorem c3_counterexample :
    (loadConfigRun (initProvider ⟨some 1, some docWithTwoTasks, emptyKB⟩)
        ⟨some 2, some docWithOneTask, emptyKB⟩).1 = true ∧
    taskSubsection docWithOneTask 2 = [] ∧
    taskKey 2 ∈
      ((loadConfigRun (initProvider ⟨some 1, some docWithTwoTasks, emptyKB⟩)
          ⟨some 2, some docWithOneTask, emptyKB⟩).2.tasks.map Prod.fst) := by
  refine ⟨by decide, by decide, by decide⟩

/-- C3, amended: after any load, the tasks mapping contains key `Task<n>`
(1 ≤ n ≤ 9) exactly when the current document's Section 3 region yields a
non-empty `### 3.<n>` subsection OR the key was already present before the
load — keys accumulate across reloads, so a task whose subsection has been
removed from the document remains in the mapping; on a first load (empty
previous mapping) the presence is exactly the non-emptiness of the
subsection. -/
theorem c3_task_key_presence (prev : List (Str × TaskConfig)) (kb : KBEnv)
    (content : Str) (n : Nat) (h1 : 1 ≤ n) (h9 : n ≤ 9) :
    taskKey n ∈ (loadTasksConfig prev kb content).map Prod.fst ↔
      taskKey n ∈ prev.map Prod.fst ∨ taskSubsection content n ≠ [] := by
  rw [loadTasksConfig]
  by_cases hts : tasksRegion content = []
  · rw [if_pos hts]
    have hsub : taskSubsection content n = [] := by
      rw [taskSubsection, hts]; exact taskSlice_of_nil_region
    simp [hsub]
  · rw [if_neg hts, mem_keys_foldl_loadTaskStep]
    rw [taskSubsection]
    constructor
    · rintro (hd | ⟨m, hm, hs, hk⟩)
      · exact Or.inl hd
      · have hm9 : m ≤ 9 := by fin_cases hm <;> norm_num
        have hnm : n = m := by
          have hfin := (taskKey_inj_lt10 ⟨n, by omega⟩ ⟨m, by omega⟩).mp hk
          exact congrArg Fin.val hfin
        rw [hnm]
        exact Or.inr hs
    · rintro (hd | hs)
      · exact Or.inl hd
      · refine Or.inr ⟨n, ?_, hs, rfl⟩
        interval_cases n <;> decide

theorem c3_task_key_witness :
    taskKey 1 ∈ (loadTasksConfig [] emptyKB docOneSection3).map Prod.fst ↔
      taskKey 1 ∈ ([] : List (Str × TaskConfig)).map Prod.fst ∨
        taskSubsection docOneSection3 1 ≠ [] :=
  c3_task_key_presence [] emptyKB docOneSection3 1 (by decide) (by decide)

/-- C1: evaluation of the code at a failing input.  `c1FailingTask` contains
the header `#### 3.1.2`, but `section_exists` — which looks for
`**#### 3.1.2**` or `### #### 3.1.2` — does not detect it, so the code's LLM
sub-block runs to the end of the subsection, past the `#### 3.1.2` header,
instead of stopping before it as the claim states (`claimedLLMSection` is the
claim's region).  The divergence is observable: the code reads the
temperature checkbox that lies after `#### 3.1.2` and stores `0.1`, while the
claimed region contains no temperature section and would leave the default
`0.5`. -/
theorem c1_llm_subblock_eval :
    containsSub "#### 3.1.2".toList c1FailingTask = true ∧
    section_exists c1FailingTask "#### 3.1.2".toList = false ∧
    containsSub "#### 3.1.2".toList (llmSection c1FailingTask 1) = true ∧
    claimedLLMSection c1FailingTask 1 =
      "#### 3.1.1 LLM\n**LLM Model**\n```gpt-4```\n".toList ∧
    containsSub "#### 3.1.2".toList (claimedLLMSection c1FailingTask 1) = false ∧
    llmSection c1FailingTask 1 ≠ claimedLLMSection c1FailingTask 1 ∧
    (loadLLMConfig c1FailingTask 1).temperature = 0.1 ∧
    find_section (claimedLLMSection c1FailingTask 1) "LLM Temperature".toList
      = [] := by
  refine ⟨by decide, by decide, by decide, by decide, by decide, by decide,
    ?_, by decide⟩
  have hls : ¬llmSection c1FailingTask 1 = [] := by decide
  have hsec : ¬find_section (llmSection c1FailingTask 1)
      "LLM Temperature".toList = [] := by decide
  have hc : (containsSub "[X] 0.1".toList
      (find_section (llmSection c1FailingTask 1) "LLM Temperature".toList) ||
    containsSub "[x] 0.1".toList
      (find_section (llmSection c1FailingTask 1) "LLM Temperature".toList))
      = true := by decide
  simp only [loadLLMConfig, if_neg hls]
  rw [if_neg hsec, if_pos hc]
